import Mathlib

/-!
Verification of the metered billing and asynchronous task-tracking subsystem.

The development shallowly embeds, in Lean:

* `src/utils/point_calculator.py` — the pure cost calculator
  (`calculate_consumption`), with Python `Decimal` modelled as `ℚ` and the
  6-fractional-digit `quantize(..., ROUND_HALF_UP)` step modelled by
  `quantize6` (round to nearest multiple of 10⁻⁶, ties away from zero, which
  is what Python's `ROUND_HALF_UP` does for signed values);
* `src/crud/user.py` — `update_user_point`, the atomic conditional balance
  update (one SQL `UPDATE ... WHERE uid = :uid AND (:allow_neg = 1 OR point
  + :delta >= 0)`);
* `src/crud/point_config.py` / `src/crud/point_record.py` — the billing
  policy lookup and the append-only ledger;
* `src/utils/point_service.py` — the billing service (pre-flight checks,
  `PointService.calculate`, `PointService.consume_points`);
* `src/modules/coze/task_manager.py` — the in-memory task registry;
* `src/utils/streaming_point_middleware.py` — the streaming meter
  (`wrap_sse_with_point_deduction`), modelled as a step machine driven by an
  arbitrary consumer trace, so that early consumer disconnects and upstream
  failures are exit paths of the model.

Database state is modelled as explicit lists of rows; Python exceptions are
modelled with `Except PyError`.
-/

/-! ## Decimal arithmetic

Python `Decimal` values are exact decimal fractions; we model them as `ℚ`.
`ratFloor` is an executable floor on `ℚ` (kernel-reducible, unlike `⌊⌋`). -/

/-- Executable floor of a rational: `q.num / q.den` with euclidean division. -/
def ratFloor (q : ℚ) : ℤ := q.num / (q.den : ℤ)

/-- `Decimal.quantize(Decimal('0.000001'), rounding=ROUND_HALF_UP)`:
round to the nearest multiple of 10⁻⁶, ties away from zero. -/
def quantize6 (x : ℚ) : ℚ :=
  if 0 ≤ x then (ratFloor (x * 1000000 + 1 / 2) : ℚ) / 1000000
  else -((ratFloor ((-x) * 1000000 + 1 / 2) : ℚ) / 1000000)

/-- `math.ceil(a / b)` for integer `a` and positive integer `b`
(executable ceiling division). -/
def ceilDiv (a b : Int) : Int := -((-a).fdiv b)

/-! ## Cost calculator (`src/utils/point_calculator.py`)

`calculate_consumption(token, measure_unit, unit, usage_amount)`.
The measure-unit constants are `MeasureUnit.NONE = 0`, `CHAR = 1`,
`PER_CALL = 2`, `PER_MINUTE = 3`.  Parameters that the Python code guards
with `x or d` / `is not None` are modelled as `Option`. -/

/-- `int(unit or 1)` followed by `if u <= 0: u = 1`: the batch size,
normalized so that `None`, `0` and negative values all become 1. -/
def batchUnit (unit : Option Int) : Int :=
  let u1 : Int := match unit with
    | none => 1
    | some v => if v = 0 then 1 else v
  if u1 ≤ 0 then 1 else u1

/-- `int(usage_amount or 1)` in the per-call branch: `None` and `0`
both fall back to a call count of 1. -/
def callsOf (usage_amount : Option Int) : Int :=
  match usage_amount with
  | none => 1
  | some v => if v = 0 then 1 else v

/-- `minutes = max(1, math.ceil(seconds / 60)) if seconds > 0 else 1`. -/
def minutesOf (seconds : Int) : Int :=
  if 0 < seconds then max 1 (ceilDiv seconds 60) else 1

/-- `calculate_consumption` from `src/utils/point_calculator.py`.
`token or 0` is modelled by `Option ℚ` with default 0 (a `Decimal` that
fails to convert also degrades to 0 there, which the `Option` absorbs).
A missing `measure_unit` defaults to per-character (1). -/
def calculate_consumption (token : Option ℚ) (measure_unit : Option Int)
    (unit : Option Int) (usage_amount : Option Int) : ℚ :=
  let t : ℚ := token.getD 0
  if t ≤ 0 then 0
  else
    let u : Int := batchUnit unit
    let mu : Int := measure_unit.getD 1
    if mu = 0 then 0
    else if mu = 2 then
      quantize6 (t * ((ceilDiv (callsOf usage_amount) u : ℤ) : ℚ))
    else if mu = 1 then
      let count : Int := usage_amount.getD 0
      if count ≤ 0 then 0
      else quantize6 (t * ((ceilDiv count u : ℤ) : ℚ))
    else if mu = 3 then
      quantize6 (t * ((ceilDiv (minutesOf (usage_amount.getD 0)) u : ℤ) : ℚ))
    else 0

/-! ## Data model

Rows of the `point_configs`, `users` and `point_records` tables, and a `Db`
value holding the three tables.  Python exceptions are modelled by
`PyError`. -/

/-- Exceptions that the embedded code can raise. -/
inductive PyError where
  | attributeError (msg : String)
  | typeError (msg : String)
  | valueError (msg : String)
  | keyError (msg : String)
  | httpException (statusCode : Int) (detail : String)
deriving DecidableEq

/-- A `point_configs` row (`src/db/point_config.py`): billing policy bound to
a workflow.  `token` is the unit price, `unit` the batch size,
`measure_unit` the metering unit, `is_enable` the enable flag. -/
structure PointConfig where
  uid : String
  function_name : String
  workflow_id : String
  measure_unit : Int
  token : ℚ
  unit : Int
  is_enable : Int
deriving DecidableEq

/-- A `users` table row restricted to the fields the billing subsystem
touches.  `point` models the physical, nullable balance column, which is
read and written only by the raw SQL in `crud/user.py:update_user_point`
(hence `Option ℚ`).  The declarative `User` class in `db/user.py` does NOT
map this column, so Python-level attribute access `user.point` on a mapped
instance raises `AttributeError`; that error is modelled at its use sites
(the pre-flight checks below), while the raw-SQL path is unaffected by the
stale class. -/
structure User where
  uid : String
  username : String
  is_del : Int
  point : Option ℚ
deriving DecidableEq

/-- A `point_records` row (`src/db/point_record.py`): one immutable ledger
entry per completed deduction. -/
structure PointRecord where
  from_user_uid : String
  point : ℚ
  record_type : Int
  record_desc : Option String
  function_name : Option String
  from_uid : Option String
deriving DecidableEq

/-- The relational state the subsystem reads and writes. -/
structure Db where
  users : List User
  point_configs : List PointConfig
  point_records : List PointRecord
deriving DecidableEq

/-- `crud/point_config.py:get_point_config_by_workflow_id`: first enabled
config bound to the workflow (the query filters `is_enable == 1`). -/
def get_point_config_by_workflow_id (db : Db) (workflow_id : String) :
    Option PointConfig :=
  db.point_configs.find? (fun c => c.workflow_id == workflow_id && c.is_enable == 1)

/-- `crud/user.py:get_user_by_uid`: user by uid, excluding soft-deleted rows. -/
def get_user_by_uid (db : Db) (uid : String) : Option User :=
  db.users.find? (fun u => u.uid == uid && u.is_del == 0)

/-- Balance of a (live) user, if the user and the balance exist. -/
def userBalance (db : Db) (uid : String) : Option ℚ :=
  match get_user_by_uid db uid with
  | some u => u.point
  | none => none

/-- The row predicate of the conditional `UPDATE` in
`crud/user.py:update_user_point`:
`uid = :uid AND (:allow_neg = 1 OR point + :delta >= 0)`.
With SQL three-valued logic a NULL `point` makes `point + :delta >= 0`
not-true, so such a row only matches when `allow_neg` is set. -/
def updateRowMatches (user_uid : String) (change : ℚ) (allow_negative : Bool)
    (u : User) : Bool :=
  u.uid == user_uid &&
    (allow_negative ||
      (match u.point with
       | some p => decide (0 ≤ p + change)
       | none => false))

/-- `crud/user.py:update_user_point`.  Looks the user up (returning
`none` without touching the balance when absent), quantizes the delta, then
performs the single atomic conditional `UPDATE`; zero matched rows raise
`ValueError("积分不足")` and the transaction is rolled back (no change). -/
def update_user_point (db : Db) (user_uid : String) (point_change : ℚ)
    (allow_negative : Bool) : Except PyError (Db × Option User) :=
  match get_user_by_uid db user_uid with
  | none => .ok (db, none)
  | some _ =>
    let change : ℚ := quantize6 point_change
    if db.users.any (updateRowMatches user_uid change allow_negative) then
      let users' := db.users.map (fun u =>
        if updateRowMatches user_uid change allow_negative u then
          { u with point := u.point.map (· + change) }
        else u)
      let db' : Db := { db with users := users' }
      .ok (db', get_user_by_uid db' user_uid)
    else
      .error (.valueError "积分不足")

/-- `crud/point_record.py:create_point_record`: append one ledger row,
with the amount quantized to 6 fractional digits. -/
def create_point_record (db : Db) (from_user_uid : String) (point : ℚ)
    (record_type : Int) (record_desc : Option String)
    (function_name : Option String) (from_uid : Option String) :
    Db × PointRecord :=
  let pr : PointRecord :=
    { from_user_uid := from_user_uid
      point := quantize6 point
      record_type := record_type
      record_desc := record_desc
      function_name := function_name
      from_uid := from_uid }
  ({ db with point_records := db.point_records ++ [pr] }, pr)

/-! ## Billing service (`src/utils/point_service.py`) -/

/-- `PointService.check_non_streaming_workflow_points`.  When no enabled
config is bound to the workflow, `if cfg and (...)` short-circuits without
touching the user and the call returns the lookup result (`None`, meaning
free).  When an enabled config exists the source evaluates
`current_user.point` — but the declarative `User` model (`db/user.py`) maps
no `point` column, so the attribute access raises `AttributeError` before
the insufficient-balance `HTTPException` can be reached. -/
def check_non_streaming_workflow_points (db : Db) (current_user : User)
    (workflow_id : String) : Except PyError (Option PointConfig) :=
  match get_point_config_by_workflow_id db workflow_id with
  | some _ => .error (.attributeError "User object has no attribute point")
  | none => .ok none

/-- `PointService.check_streaming_workflow_points`: same structure and the
same stale `current_user.point` attribute read as the non-streaming check;
its distinct rejection message "积分不足，无法开始流式任务" is unreachable. -/
def check_streaming_workflow_points (db : Db) (current_user : User)
    (workflow_id : String) : Except PyError (Option PointConfig) :=
  match get_point_config_by_workflow_id db workflow_id with
  | some _ => .error (.attributeError "User object has no attribute point")
  | none => .ok none

/-- `PointService.calculate`.  When no enabled config exists the call is
free.  Otherwise the source executes
`calculate_consumption(cfg.consume, cfg.measure_unit, usage_amount)`:
`cfg.consume` is not an attribute of the `PointConfig` model
(`db/point_config.py` names the price column `token`), so the attribute
access raises `AttributeError`; even with that attribute present, the call
passes 3 positional arguments to `calculate_consumption`, whose 4
parameters `(token, measure_unit, unit, usage_amount)` all lack defaults,
which raises `TypeError`.  The enabled-config path therefore raises. -/
def PointService_calculate (db : Db) (workflow_id : String)
    (usage_amount : Option Int) :
    Except PyError (ℚ × String × Option PointConfig) :=
  match get_point_config_by_workflow_id db workflow_id with
  | none => .ok (0, "免费使用，无积分扣减", none)
  | some cfg =>
    if cfg.is_enable ≠ 1 then .ok (0, "免费使用，无积分扣减", none)
    else .error (.attributeError "PointConfig object has no attribute consume")

/-- Result dictionary of `PointService.consume_points`. -/
structure ConsumeResult where
  is_free : Bool
  consumption : ℚ
  desc : String
deriving DecidableEq

/-- The free-result dictionary
`{"is_free": True, "consumption": 0, "desc": "免费使用，无积分扣减"}`. -/
def freeConsumeResult : ConsumeResult :=
  { is_free := true, consumption := 0, desc := "免费使用，无积分扣减" }

/-- `PointService.consume_points`.  Computes the cost via
`PointService.calculate` (whose error, if any, propagates), returns the free
result without any write when `total <= 0`, and otherwise proceeds to the
deduction.  On that path the source calls
`update_user_point(db, user_uid=user_uid, point_delta=-total, ...)` — but
the parameter of `update_user_point` is named `point_change`
(`crud/user.py`), so the call raises `TypeError` before any update; the
subsequent `create_point_record(db, user_uid=..., ...)` call would likewise
pass a `user_uid` keyword that `create_point_record` does not accept. -/
def consume_points (db : Db) (user_uid : String) (from_user_uid : Option String)
    (workflow_id : String) (usage_amount : Option Int) (allow_negative : Bool)
    (record_type : Int) (record_desc_pre : Option String) :
    Except PyError (Db × ConsumeResult) := do
  let r ← PointService_calculate db workflow_id usage_amount
  let total := r.1
  if total ≤ 0 then
    return (db, freeConsumeResult)
  else
    .error (.typeError "update_user_point got an unexpected keyword argument point_delta")

/-! ## Task registry (`src/modules/coze/task_manager.py`)

The `_tasks` dict is modelled as an insertion-ordered association list; all
operations run under the instance lock, so each is one atomic step. -/

/-- The task registry: `task_id -> workflow_id`. -/
structure TaskManager where
  tasks : List (String × String)
deriving DecidableEq

/-- `TaskManager.get_workflow_id`: non-mutating lookup. -/
def TaskManager.get_workflow_id (tm : TaskManager) (task_id : String) :
    Option String :=
  (tm.tasks.find? (fun p => p.1 == task_id)).map (fun p => p.2)

/-- `TaskManager.add_task`: raises `ValueError` on a duplicate key,
otherwise inserts. -/
def TaskManager.add_task (tm : TaskManager) (task_id workflow_id : String) :
    Except PyError TaskManager :=
  if tm.tasks.any (fun p => p.1 == task_id) then
    .error (.valueError ("Task " ++ task_id ++ " already exists"))
  else
    .ok { tasks := tm.tasks ++ [(task_id, workflow_id)] }

/-- `TaskManager.delete_task`: raises `KeyError` when absent, otherwise
removes the entry. -/
def TaskManager.delete_task (tm : TaskManager) (task_id : String) :
    Except PyError TaskManager :=
  if tm.tasks.any (fun p => p.1 == task_id) then
    .ok { tasks := tm.tasks.filter (fun p => !(p.1 == task_id)) }
  else
    .error (.keyError ("Task " ++ task_id ++ " not found"))

/-! ## Concurrent deductions

`update_user_point` performs its check-and-set as a single SQL `UPDATE`
(one atomic step against the row), so any concurrent schedule of N
identical deductions is an interleaving of N atomic steps; `runDeducts`
executes such a schedule and counts successes and failures. -/

/-- Run `n` deductions `update_user_point db uid (-c) false` in sequence
(each one atomic); returns the final state, the number of successes and the
number of `InsufficientBalance` failures. -/
def runDeducts (uid : String) (c : ℚ) : Nat → Db → Db × Nat × Nat
  | 0, db => (db, 0, 0)
  | n + 1, db =>
    match update_user_point db uid (-c) false with
    | .ok (db', _) =>
      let r := runDeducts uid c n db'
      (r.1, r.2.1 + 1, r.2.2)
    | .error _ =>
      let r := runDeducts uid c n db
      (r.1, r.2.1, r.2.2 + 1)

/-- A one-user database, as in the concurrent-deduction scenario. -/
def singleUserDb (uid username : String) (point : Option ℚ) : Db :=
  { users := [{ uid := uid, username := username, is_del := 0, point := point }]
    point_configs := []
    point_records := [] }

/-! ## Streaming meter (`src/utils/streaming_point_middleware.py`)

Chunks are byte lists.  `chunk.decode("utf-8", errors="ignore")` is
modelled by `utf8Decode` (invalid bytes are skipped, as the ignore handler
does; a multi-byte character split across chunks is dropped, because the
source decodes each chunk separately). -/

/-- Whether a byte is a UTF-8 continuation byte. -/
def contByte (b : Nat) : Bool := 128 ≤ b && b < 192

/-- Code point to `Char`, used by the decoder (invalid scalar values cannot
arise from a valid sequence; `Char.ofNat` maps them to NUL). -/
def cpChar (n : Nat) : Char := Char.ofNat n

/-- `bytes.decode("utf-8", errors="ignore")`: decode, skipping bytes that do
not start a valid sequence. -/
def utf8Decode : List Nat → List Char
  | [] => []
  | b :: rest =>
    if b < 128 then cpChar b :: utf8Decode rest
    else if b < 192 then utf8Decode rest
    else if b < 224 then
      match _h1 : rest with
      | b1 :: rest1 =>
        if contByte b1 then
          cpChar ((b - 192) * 64 + (b1 - 128)) :: utf8Decode rest1
        else utf8Decode rest
      | [] => []
    else if b < 240 then
      match _h2 : rest with
      | b1 :: b2 :: rest2 =>
        if contByte b1 && contByte b2 then
          cpChar ((b - 224) * 4096 + (b1 - 128) * 64 + (b2 - 128)) :: utf8Decode rest2
        else utf8Decode rest
      | _ => []
    else if b < 248 then
      match _h3 : rest with
      | b1 :: b2 :: b3 :: rest3 =>
        if contByte b1 && contByte b2 && contByte b3 then
          cpChar ((b - 240) * 262144 + (b1 - 128) * 4096 + (b2 - 128) * 64 + (b3 - 128)) :: utf8Decode rest3
        else utf8Decode rest
      | _ => []
    else utf8Decode rest
termination_by l => l.length
decreasing_by all_goals (simp_wf; (try subst_vars); (try simp_arith))

/-! ### JSON values and a fuel-bounded `json.loads`

`json.loads(payload)` either yields a value or raises; the parser below
returns `Option PyJson`.  Number literals keep their lexeme (only its
length is ever used, for `len(str(obj))`). -/

/-- A parsed JSON value (the shapes `json.loads` can produce). -/
inductive PyJson where
  | null
  | bool (b : Bool)
  | num (lexeme : String)
  | str (s : String)
  | arr (elems : List PyJson)
  | obj (fields : List (String × PyJson))

/-- The `{` character (code 123). -/
def lbrace : Char := Char.ofNat 123

/-- The `}` character (code 125). -/
def rbrace : Char := Char.ofNat 125

/-- Drop leading JSON whitespace. -/
def skipWs : List Char → List Char
  | [] => []
  | c :: rest =>
    if c = ' ' ∨ c = '\t' ∨ c = '\n' ∨ c = '\r' then skipWs rest else c :: rest

/-- Value of one hexadecimal digit. -/
def hexVal (c : Char) : Option Nat :=
  if '0' ≤ c ∧ c ≤ '9' then some (c.toNat - 48)
  else if 'a' ≤ c ∧ c ≤ 'f' then some (c.toNat - 87)
  else if 'A' ≤ c ∧ c ≤ 'F' then some (c.toNat - 55)
  else none

/-- Four hexadecimal digits, for a `\u` escape. -/
def parseHex4 : List Char → Option (Nat × List Char)
  | a :: b :: c :: d :: rest =>
    match hexVal a, hexVal b, hexVal c, hexVal d with
    | some va, some vb, some vc, some vd =>
      some (va * 4096 + vb * 256 + vc * 16 + vd, rest)
    | _, _, _, _ => none
  | _ => none

/-- Body of a JSON string literal (after the opening quote), handling
escapes; returns the characters and the input after the closing quote. -/
def parseStringBody : Nat → List Char → Option (List Char × List Char)
  | 0, _ => none
  | _ + 1, [] => none
  | fuel + 1, c :: rest =>
    if c = '"' then some ([], rest)
    else if c = '\\' then
      match rest with
      | [] => none
      | e :: rest2 =>
        let esc : Option (Char × List Char) :=
          if e = 'n' then some ('\n', rest2)
          else if e = 't' then some ('\t', rest2)
          else if e = 'r' then some ('\r', rest2)
          else if e = 'b' then some (Char.ofNat 8, rest2)
          else if e = 'f' then some (Char.ofNat 12, rest2)
          else if e = '"' ∨ e = '\\' ∨ e = '/' then some (e, rest2)
          else if e = 'u' then
            match parseHex4 rest2 with
            | some (n, rest3) => some (Char.ofNat n, rest3)
            | none => none
          else none
        match esc with
        | some (ch, r) =>
          match parseStringBody fuel r with
          | some (cs, rest4) => some (ch :: cs, rest4)
          | none => none
        | none => none
    else
      match parseStringBody fuel rest with
      | some (cs, rest4) => some (c :: cs, rest4)
      | none => none

/-- Whether a character can appear in a JSON number lexeme. -/
def isNumChar (c : Char) : Bool :=
  c.isDigit || c = '-' || c = '+' || c = '.' || c = 'e' || c = 'E'

/-- Maximal run of number characters. -/
def spanNum : List Char → List Char × List Char
  | [] => ([], [])
  | c :: rest =>
    if isNumChar c then
      let r := spanNum rest
      (c :: r.1, r.2)
    else ([], c :: rest)

mutual

/-- Parse one JSON value. -/
def parseValue : Nat → List Char → Option (PyJson × List Char)
  | 0, _ => none
  | fuel + 1, cs =>
    match skipWs cs with
    | [] => none
    | c :: rest =>
      if c = '"' then
        match parseStringBody fuel rest with
        | some (content, rest2) => some (.str (String.mk content), rest2)
        | none => none
      else if c = lbrace then parseMembers fuel rest []
      else if c = '[' then parseElems fuel rest []
      else if c = 't' then
        match rest with
        | 'r' :: 'u' :: 'e' :: rest2 => some (.bool true, rest2)
        | _ => none
      else if c = 'f' then
        match rest with
        | 'a' :: 'l' :: 's' :: 'e' :: rest2 => some (.bool false, rest2)
        | _ => none
      else if c = 'n' then
        match rest with
        | 'u' :: 'l' :: 'l' :: rest2 => some (.null, rest2)
        | _ => none
      else if c.isDigit ∨ c = '-' then
        let r := spanNum (c :: rest)
        if r.1.isEmpty then none else some (.num (String.mk r.1), r.2)
      else none

/-- Parse the members of a JSON object (after the opening brace). -/
def parseMembers : Nat → List Char → List (String × PyJson) →
    Option (PyJson × List Char)
  | 0, _, _ => none
  | fuel + 1, cs, acc =>
    match skipWs cs with
    | [] => none
    | c :: rest =>
      if c = rbrace then
        if acc.isEmpty then some (.obj acc, rest) else none
      else if c = '"' then
        match parseStringBody fuel rest with
        | some (key, rest2) =>
          match skipWs rest2 with
          | ':' :: rest3 =>
            match parseValue fuel rest3 with
            | some (v, rest4) =>
              let acc' := acc ++ [(String.mk key, v)]
              match skipWs rest4 with
              | ',' :: rest5 => parseMembers fuel rest5 acc'
              | d :: rest5 => if d = rbrace then some (.obj acc', rest5) else none
              | [] => none
            | none => none
          | _ => none
        | none => none
      else none

/-- Parse the elements of a JSON array (after the opening bracket). -/
def parseElems : Nat → List Char → List PyJson → Option (PyJson × List Char)
  | 0, _, _ => none
  | fuel + 1, cs, acc =>
    match skipWs cs with
    | [] => none
    | c :: rest =>
      if c = ']' then
        if acc.isEmpty then some (.arr acc, rest) else none
      else
        match parseValue fuel (c :: rest) with
        | some (v, rest2) =>
          let acc' := acc ++ [v]
          match skipWs rest2 with
          | ',' :: rest3 => parseElems fuel rest3 acc'
          | ']' :: rest3 => some (.arr acc', rest3)
          | _ => none
        | none => none

end

/-- `json.loads`: parse a complete JSON document (fuel amply larger than
any number of recursive parsing steps the input can demand). -/
def parseJson (s : String) : Option PyJson :=
  match parseValue (4 * s.length + 16) s.data with
  | some (v, rest) => if (skipWs rest).isEmpty then some v else none
  | none => none

/-! ### Character counting (`_count_text_in_json`) -/

/-- `obj.get(key)` on a parsed JSON object: the last binding wins, as in a
Python dict built by `json.loads`. -/
def dictGet (fields : List (String × PyJson)) (k : String) : Option PyJson :=
  (fields.reverse.find? (fun p => p.1 == k)).map (fun p => p.2)

/-- The priority lookup of `_count_text_in_json` on a dict: the first of
`content`, `text`, `output`, `result` whose value is a string. -/
def objPriorityText (fields : List (String × PyJson)) : Option String :=
  match dictGet fields "content" with
  | some (.str s) => some s
  | _ =>
    match dictGet fields "text" with
    | some (.str s) => some s
    | _ =>
      match dictGet fields "output" with
      | some (.str s) => some s
      | _ =>
        match dictGet fields "result" with
        | some (.str s) => some s
        | _ => none

mutual

/-- The stack traversal of `_count_text_in_json` over a dict: total length
of all string values in the subtree (dict keys are not counted). -/
def sumStrings : PyJson → Nat
  | .str s => s.length
  | .arr xs => sumStringsList xs
  | .obj fs => sumStringsFields fs
  | _ => 0

/-- `sumStrings` over the elements of an array. -/
def sumStringsList : List PyJson → Nat
  | [] => 0
  | x :: xs => sumStrings x + sumStringsList xs

/-- `sumStrings` over the values of an object. -/
def sumStringsFields : List (String × PyJson) → Nat
  | [] => 0
  | f :: fs => sumStrings f.2 + sumStringsFields fs

end

mutual

/-- `_count_text_in_json`: a dict yields the priority field's length or,
failing that, the summed length of all string values in its subtree; a
list sums the count of its elements; a string yields its length; other
values yield `len(str(obj))` (`None` → 4, `True` → 4, `False` → 5, a
number the length of its literal). -/
def countTextInJson : PyJson → Nat
  | .obj fs =>
    match objPriorityText fs with
    | some s => s.length
    | none => sumStringsFields fs
  | .arr xs => countTextList xs
  | .str s => s.length
  | .null => 4
  | .bool true => 4
  | .bool false => 5
  | .num lexeme => lexeme.length

/-- `_count_text_in_json` summed over the elements of a list. -/
def countTextList : List PyJson → Nat
  | [] => 0
  | x :: xs => countTextInJson x + countTextList xs

end

/-! ### The meter loop (`wrap_sse_with_point_deduction`) -/

/-- Per-stream meter state: the running character count and the pending
(line-incomplete) buffer. -/
structure MeterState where
  char_count : Nat
  buffer : List Char
deriving DecidableEq

/-- Count billable characters of one complete `data:` payload:
`json.loads` first, falling back to the raw payload length. -/
def countPayload (payload : String) : Nat :=
  match parseJson payload with
  | some obj => countTextInJson obj
  | none => payload.length

/-- Characters contributed by one complete line: only `data:` lines with a
non-empty stripped payload count. -/
def lineCount (line : String) : Nat :=
  if line.startsWith "data:" then
    let payload := (line.drop 5).trim
    if payload = "" then 0 else countPayload payload
  else 0

/-- Split the buffered text at newline characters: the complete lines (in
order, without their terminators) and the trailing incomplete remainder. -/
def splitLinesAux : List Char → List Char → List String × List Char
  | [], cur => ([], cur.reverse)
  | c :: rest, cur =>
    if c = '\n' then
      let r := splitLinesAux rest []
      (String.mk cur.reverse :: r.1, r.2)
    else splitLinesAux rest (c :: cur)

/-- One iteration of the `async for` body on a chunk: decode it (skipping
the whole line machinery when the decode is empty, as the source's
`if decoded:` does), append to the buffer, consume every complete line,
and keep the remainder buffered. -/
def processChunk (st : MeterState) (chunk : List Nat) : MeterState :=
  let decoded := utf8Decode chunk
  if decoded.isEmpty then st
  else
    let r := splitLinesAux (st.buffer ++ decoded) []
    { char_count := st.char_count + (r.1.map lineCount).sum, buffer := r.2 }

/-- The finalizer's tail handling: a buffered, never-terminated `data:` line
still contributes to the count before the deduction is attempted. -/
def finalizeCount (st : MeterState) : Nat :=
  let tail := (String.mk st.buffer).trim
  if tail.startsWith "data:" then
    let payload := (tail.drop 5).trim
    if payload = "" then st.char_count else st.char_count + countPayload payload
  else st.char_count

/-- Arguments of the finalizer's `PointService.consume_points` call
(`record_desc_pre` models the `record_desc_prefix` keyword). -/
structure DeductCall where
  user_uid : String
  from_user_uid : Option String
  workflow_id : String
  usage_amount : Option Int
  allow_negative : Bool
  record_desc_pre : Option String
deriving DecidableEq

/-- The deduction call the finalizer issues for an accumulated count `n`:
`consume_points(..., usage_amount=n, allow_negative=True,
record_desc_prefix="流式扣费: workflow_id=" + workflow_id)`. -/
def streamDeductCall (user_uid : String) (from_user_uid : Option String)
    (workflow_id : String) (n : Nat) : DeductCall :=
  { user_uid := user_uid
    from_user_uid := from_user_uid
    workflow_id := workflow_id
    usage_amount := some (n : Int)
    allow_negative := true
    record_desc_pre := some ("流式扣费: workflow_id=" ++ workflow_id) }

/-- One consumer step: pull the next chunk, or stop consuming
(disconnect / `aclose`, which raises `GeneratorExit` at the suspended
yield). -/
inductive ConsumerAction where
  | next
  | close
deriving DecidableEq

/-- Observable outcome of one complete run of the wrapped generator:
the chunks delivered downstream, how many times the `finally` block ran,
the deduction calls it made with their (discarded) results, and the
exception, if any, that propagates to the consumer. -/
structure RunResult where
  yields : List (List Nat)
  fin_runs : Nat
  deduct_calls : List DeductCall
  deduct_results : List (Except PyError (Db × ConsumeResult))
  propagated : Option PyError

/-- The `finally` block: process the buffered tail, then call
`consume_points` with the accumulated count and `allow_negative=True`;
the call's outcome — success or exception — is recorded and swallowed
(`except Exception: pass`). -/
def finalizeGen (db : Db) (user_uid : String) (from_user_uid : Option String)
    (workflow_id : String) (st : MeterState) :
    DeductCall × Except PyError (Db × ConsumeResult) :=
  let n := finalizeCount st
  let call := streamDeductCall user_uid from_user_uid workflow_id n
  (call,
    consume_points db user_uid from_user_uid workflow_id (some (n : Int))
      true 2 call.record_desc_pre)

/-- Execution of the wrapped generator against a consumer trace.
`chunks` are the chunks upstream will yield, in order; `uerr` is an
exception upstream raises after its last chunk (`none` for a normal end).
A `.next` action pulls one chunk (processing it, then yielding it); `.next`
against an exhausted upstream ends the generator (propagating `uerr`);
`.close` models a consumer disconnect; an exhausted action list models the
framework closing the abandoned generator.  Every terminal case routes
through the `finally` block exactly once. -/
def runMeterAux (db : Db) (user_uid : String) (from_user_uid : Option String)
    (workflow_id : String) :
    List (List Nat) → Option PyError → MeterState → List ConsumerAction →
    RunResult
  | _chunks, _uerr, st, [] =>
    let fr := finalizeGen db user_uid from_user_uid workflow_id st
    { yields := [], fin_runs := 1, deduct_calls := [fr.1]
      deduct_results := [fr.2], propagated := none }
  | _chunks, _uerr, st, .close :: _ =>
    let fr := finalizeGen db user_uid from_user_uid workflow_id st
    { yields := [], fin_runs := 1, deduct_calls := [fr.1]
      deduct_results := [fr.2], propagated := none }
  | [], uerr, st, .next :: _ =>
    let fr := finalizeGen db user_uid from_user_uid workflow_id st
    { yields := [], fin_runs := 1, deduct_calls := [fr.1]
      deduct_results := [fr.2], propagated := uerr }
  | chunk :: rest, uerr, st, .next :: acts =>
    let st' := processChunk st chunk
    let r := runMeterAux db user_uid from_user_uid workflow_id rest uerr st' acts
    { r with yields := chunk :: r.yields }

/-- Run the wrapped generator from its initial state. -/
def runMeter (db : Db) (user_uid : String) (from_user_uid : Option String)
    (workflow_id : String) (upstream : List (List Nat))
    (uerr : Option PyError) (actions : List ConsumerAction) : RunResult :=
  runMeterAux db user_uid from_user_uid workflow_id upstream uerr
    { char_count := 0, buffer := [] } actions

/-- Number of chunks the consumer pulls before its first disconnect. -/
def nextsBeforeClose : List ConsumerAction → Nat
  | [] => 0
  | .close :: _ => 0
  | .next :: acts => nextsBeforeClose acts + 1

/-- Meter state after processing a list of chunks. -/
def meterStateAfter (chunks : List (List Nat)) : MeterState :=
  chunks.foldl processChunk { char_count := 0, buffer := [] }

/-! ## Arithmetic lemmas -/

/-- The executable floor agrees with `⌊⌋`. -/
theorem ratFloor_eq (q : ℚ) : ratFloor q = ⌊q⌋ := by
  rw [ratFloor, Rat.floor_def]

theorem quantize6_nonneg {x : ℚ} (hx : 0 ≤ x) : 0 ≤ quantize6 x := by
  rw [quantize6, if_pos hx, ratFloor_eq]
  have h0 : (0 : ℤ) ≤ ⌊x * 1000000 + 1 / 2⌋ :=
    Int.floor_nonneg.mpr (by linarith)
  positivity

theorem quantize6_nonpos {x : ℚ} (hx : x ≤ 0) : quantize6 x ≤ 0 := by
  rw [quantize6]
  by_cases h : 0 ≤ x
  · have hx0 : x = 0 := le_antisymm hx h
    subst hx0
    rw [if_pos le_rfl, ratFloor_eq]
    norm_num
  · rw [if_neg h, ratFloor_eq]
    have h0 : (0 : ℤ) ≤ ⌊-x * 1000000 + 1 / 2⌋ := by
      apply Int.floor_nonneg.mpr
      nlinarith [not_le.mp h]
    have : (0 : ℚ) ≤ (⌊-x * 1000000 + 1 / 2⌋ : ℚ) / 1000000 := by positivity
    linarith

theorem quantize6_mono {x y : ℚ} (h : x ≤ y) : quantize6 x ≤ quantize6 y := by
  rw [quantize6, quantize6]
  by_cases hx : 0 ≤ x <;> by_cases hy : 0 ≤ y
  · rw [if_pos hx, if_pos hy, ratFloor_eq, ratFloor_eq]
    gcongr
  · exact absurd (hx.trans h) hy
  · rw [if_neg hx, if_pos hy, ratFloor_eq, ratFloor_eq]
    have h1 : (0 : ℤ) ≤ ⌊-x * 1000000 + 1 / 2⌋ := by
      apply Int.floor_nonneg.mpr
      nlinarith [not_le.mp hx]
    have h2 : (0 : ℤ) ≤ ⌊y * 1000000 + 1 / 2⌋ :=
      Int.floor_nonneg.mpr (by linarith)
    have h1q : (0 : ℚ) ≤ (⌊-x * 1000000 + 1 / 2⌋ : ℚ) / 1000000 := by positivity
    have h2q : (0 : ℚ) ≤ (⌊y * 1000000 + 1 / 2⌋ : ℚ) / 1000000 := by positivity
    linarith
  · rw [if_neg hx, if_neg hy, ratFloor_eq, ratFloor_eq]
    have hxy : -y ≤ -x := by linarith
    have : (⌊-y * 1000000 + 1 / 2⌋ : ℚ) / 1000000 ≤
        (⌊-x * 1000000 + 1 / 2⌋ : ℚ) / 1000000 := by gcongr
    linarith

/-- `quantize6` fixes integers. -/
theorem quantize6_intCast (n : ℤ) : quantize6 (n : ℚ) = n := by
  have key : ∀ m : ℤ, 0 ≤ m → quantize6 (m : ℚ) = m := by
    intro m hm
    rw [quantize6, if_pos (by exact_mod_cast hm), ratFloor_eq]
    have hfl : ⌊(m : ℚ) * 1000000 + 1 / 2⌋ = m * 1000000 := by
      rw [Int.floor_eq_iff]
      constructor
      · push_cast
        linarith
      · push_cast
        linarith
    rw [hfl]
    push_cast
    field_simp
  rcases le_or_lt 0 n with hn | hn
  · exact key n hn
  · have hneg : ¬ (0 : ℚ) ≤ (n : ℚ) := by
      rw [not_le]
      exact_mod_cast hn
    have hpos : (0 : ℚ) ≤ ((-n : ℤ) : ℚ) := by
      push_cast
      have : (n : ℚ) < 0 := by exact_mod_cast hn
      linarith
    have h1 : quantize6 ((-n : ℤ) : ℚ) = ((-n : ℤ) : ℚ) := key (-n) (by omega)
    rw [quantize6, if_pos hpos, ratFloor_eq] at h1
    rw [quantize6, if_neg hneg, ratFloor_eq]
    push_cast at h1 ⊢
    linarith

theorem ceilDiv_mono {a b u : ℤ} (hu : 0 < u) (h : a ≤ b) :
    ceilDiv a u ≤ ceilDiv b u := by
  rw [ceilDiv, ceilDiv, Int.fdiv_eq_ediv _ hu.le, Int.fdiv_eq_ediv _ hu.le]
  have := Int.ediv_le_ediv hu (neg_le_neg h)
  omega

theorem ceilDiv_pos {a u : ℤ} (ha : 0 < a) (hu : 0 < u) : 0 < ceilDiv a u := by
  rw [ceilDiv, Int.fdiv_eq_ediv _ hu.le]
  have : (-a) / u < 0 := Int.ediv_neg' (by omega) hu
  omega

theorem batchUnit_pos (unit : Option Int) : 0 < batchUnit unit := by
  rcases unit with _ | v <;> simp only [batchUnit] <;> split_ifs <;> omega

theorem callsOf_mono {a b : Int} (hab : a ≤ b) :
    callsOf (some a) ≤ callsOf (some b) := by
  simp only [callsOf]
  by_cases ha0 : a = 0 <;> by_cases hb0 : b = 0 <;> simp [ha0, hb0] <;> omega

theorem minutesOf_mono {a b : Int} (hab : a ≤ b) :
    minutesOf a ≤ minutesOf b := by
  simp only [minutesOf]
  by_cases hb : 0 < b
  · by_cases ha : 0 < a
    · simp only [if_pos ha, if_pos hb]
      exact max_le_max le_rfl (ceilDiv_mono (by norm_num) hab)
    · simp only [if_neg ha, if_pos hb]
      exact le_max_left 1 _
  · have ha : ¬ 0 < a := by omega
    simp [ha, hb]

theorem quantize6_int_mul (m k : ℤ) :
    quantize6 ((m : ℚ) * (k : ℚ)) = ((m * k : ℤ) : ℚ) := by
  rw [← Int.cast_mul, quantize6_intCast]

/-- Claim C6: for every fixed billing policy (unit price, metering unit,
batch size), the computed cost is non-decreasing in the usage quantity:
for all usage quantities `a ≤ b`, `cost(a) ≤ cost(b)`. -/
theorem cost_monotone_in_usage (token : Option ℚ) (measure_unit unit : Option Int)
    (a b : Int) (hab : a ≤ b) :
    calculate_consumption token measure_unit unit (some a) ≤
      calculate_consumption token measure_unit unit (some b) := by
  simp only [calculate_consumption, Option.getD_some]
  by_cases ht : token.getD 0 ≤ 0
  · simp [ht]
  · simp only [if_neg ht]
    push_neg at ht
    have hu : 0 < batchUnit unit := batchUnit_pos unit
    by_cases h0 : (measure_unit.getD 1) = 0
    · simp [h0]
    · simp only [if_neg h0]
      by_cases h2 : (measure_unit.getD 1) = 2
      · simp only [if_pos h2]
        apply quantize6_mono
        apply mul_le_mul_of_nonneg_left _ ht.le
        exact_mod_cast ceilDiv_mono hu (callsOf_mono hab)
      · simp only [if_neg h2]
        by_cases h1 : (measure_unit.getD 1) = 1
        · simp only [if_pos h1]
          by_cases hbnp : b ≤ 0
          · have hanp : a ≤ 0 := hab.trans hbnp
            simp [hanp, hbnp]
          · simp only [if_neg hbnp]
            push_neg at hbnp
            by_cases hanp : a ≤ 0
            · simp only [if_pos hanp]
              apply quantize6_nonneg
              apply mul_nonneg ht.le
              exact_mod_cast (ceilDiv_pos hbnp hu).le
            · simp only [if_neg hanp]
              apply quantize6_mono
              apply mul_le_mul_of_nonneg_left _ ht.le
              exact_mod_cast ceilDiv_mono hu hab
        · simp only [if_neg h1]
          by_cases h3 : (measure_unit.getD 1) = 3
          · simp only [if_pos h3]
            apply quantize6_mono
            apply mul_le_mul_of_nonneg_left _ ht.le
            exact_mod_cast ceilDiv_mono hu (minutesOf_mono hab)
          · simp [h3]

/-- Witness for claim C6 at a concrete policy and usage pair. -/
theorem cost_monotone_in_usage_witness :
    calculate_consumption (some 10) (some 1) (some 100) (some 3) ≤
      calculate_consumption (some 10) (some 1) (some 100) (some 7) :=
  cost_monotone_in_usage (some 10) (some 1) (some 100) 3 7 (by decide)

/-- Claim C5: per-character metering with batch size 100 and unit price 10
charges 10 for usage 100, 20 for usage 101, and 0 for usage 0. -/
theorem batch_boundary_per_character :
    calculate_consumption (some 10) (some 1) (some 100) (some 100) = 10 ∧
    calculate_consumption (some 10) (some 1) (some 100) (some 101) = 20 ∧
    calculate_consumption (some 10) (some 1) (some 100) (some 0) = 0 := by
  refine ⟨?_, ?_, ?_⟩
  · have hc : ceilDiv 100 (batchUnit (some 100)) = 1 := by decide
    have h10 : quantize6 ((10 : ℚ)) = 10 := by
      exact_mod_cast quantize6_intCast 10
    simp only [calculate_consumption, Option.getD_some, hc]
    norm_num [h10]
  · have hc : ceilDiv 101 (batchUnit (some 100)) = 2 := by decide
    have h20 : quantize6 ((20 : ℚ)) = 20 := by
      exact_mod_cast quantize6_intCast 20
    simp only [calculate_consumption, Option.getD_some, hc]
    norm_num [h20]
  · simp only [calculate_consumption, Option.getD_some]
    norm_num

/-! ## Task registry claims -/

/-- Claim C7: if `add` succeeds for a `task_id`, a second `add` with the same
key fails with the duplicate-task error while the registry keeps exactly the
state the first call produced (the error is raised before any mutation, so
the failed call returns no new registry state and the mapping from the first
call is still in place); if the `task_id` is absent, `add` inserts it. -/
theorem add_task_duplicate_and_insert (tm : TaskManager)
    (task_id workflow_id : String) :
    (∀ tm2 workflow_id2, tm.add_task task_id workflow_id = .ok tm2 →
      tm2.add_task task_id workflow_id2 =
        .error (.valueError ("Task " ++ task_id ++ " already exists")) ∧
      tm2.get_workflow_id task_id = some workflow_id ∧
      tm2.tasks = tm.tasks ++ [(task_id, workflow_id)]) ∧
    (tm.get_workflow_id task_id = none →
      tm.add_task task_id workflow_id =
        .ok { tasks := tm.tasks ++ [(task_id, workflow_id)] }) := by
  constructor
  · intro tm2 workflow_id2 h
    rw [TaskManager.add_task] at h
    by_cases hdup : tm.tasks.any (fun p => p.1 == task_id)
    · rw [if_pos hdup] at h
      cases h
    · rw [if_neg hdup] at h
      cases h
      refine ⟨?_, ?_, rfl⟩
      · rw [TaskManager.add_task, if_pos ?_]
        simp
      · rw [TaskManager.get_workflow_id]
        have hnone : tm.tasks.find? (fun p => p.1 == task_id) = none := by
          rw [List.find?_eq_none]
          intro x hx
          intro hpx
          exact hdup (List.any_eq_true.mpr ⟨x, hx, hpx⟩)
        rw [List.find?_append, hnone]
        simp [List.find?]
  · intro hget
    rw [TaskManager.get_workflow_id] at hget
    have hnone : tm.tasks.find? (fun p => p.1 == task_id) = none := by
      cases hfind : tm.tasks.find? (fun p => p.1 == task_id) with
      | none => rfl
      | some x => rw [hfind] at hget; cases hget
    have hany : ¬ tm.tasks.any (fun p => p.1 == task_id) = true := by
      intro hx
      rcases List.any_eq_true.mp hx with ⟨x, hx1, hx2⟩
      have := List.find?_eq_none.mp hnone x hx1
      exact this hx2
    rw [TaskManager.add_task, if_neg hany]

/-- Witness for claim C7: the concrete two-call scenario. -/
theorem add_task_duplicate_and_insert_witness :
    ({ tasks := [] } : TaskManager).add_task "t1" "wf1" =
      .ok { tasks := [("t1", "wf1")] } ∧
    ({ tasks := [("t1", "wf1")] } : TaskManager).add_task "t1" "wf2" =
      .error (.valueError ("Task " ++ "t1" ++ " already exists")) := by
  have h := add_task_duplicate_and_insert { tasks := [] } "t1" "wf1"
  have hins : ({ tasks := [] } : TaskManager).add_task "t1" "wf1" =
      .ok { tasks := [("t1", "wf1")] } := by
    have := h.2 rfl
    simpa using this
  exact ⟨hins, (h.1 { tasks := [("t1", "wf1")] } "wf2" hins).1⟩

/-! ## Pre-flight check claims -/

/-- An enabled per-character billing policy used in concrete scenarios. -/
def enabledCfg : PointConfig :=
  { uid := "pc-1", function_name := "文案创作", workflow_id := "wf-1",
    measure_unit := 1, token := 10, unit := 100, is_enable := 1 }

/-- A live user with no stored balance. -/
def noBalanceUser : User :=
  { uid := "u-0", username := "nobody", is_del := 0, point := none }

/-- A live user with balance 5. -/
def balanceFiveUser : User :=
  { uid := "u-1", username := "alice", is_del := 0, point := some 5 }

/-- A database with one enabled policy and the two users above. -/
def exampleDb : Db :=
  { users := [noBalanceUser, balanceFiveUser]
    point_configs := [enabledCfg]
    point_records := [] }

/-- Claim C9 (code bug): the claim — derived from the checks' own code —
says a user with an unset balance is rejected with the insufficient-balance
HTTP 400 whenever an enabled policy exists.  The staged `User` model
(`db/user.py`) maps no `point` column, so `current_user.point` raises
`AttributeError` on every enabled-policy path and the HTTP 400 is
unreachable: the user is indeed never treated as eligible, but via an
unhandled error, not the claimed rejection.  Evaluated at the unset-balance
user against the enabled policy (first two conjuncts) and, for the
short-circuiting free path, against a workflow with no policy (last two). -/
theorem preflight_checks_raise_on_enabled_policy :
    check_non_streaming_workflow_points exampleDb noBalanceUser "wf-1" =
      .error (.attributeError "User object has no attribute point") ∧
    check_streaming_workflow_points exampleDb noBalanceUser "wf-1" =
      .error (.attributeError "User object has no attribute point") ∧
    check_non_streaming_workflow_points exampleDb noBalanceUser "wf-none" =
      .ok none ∧
    check_streaming_workflow_points exampleDb noBalanceUser "wf-none" =
      .ok none :=
  ⟨rfl, rfl, rfl, rfl⟩

/-! ## Billing service claims -/

/-- Claim C3 (code bug): the spec requires every computed-cost path to be a
total function that never raises, including for an enabled policy record;
but `PointService.calculate` raises on every enabled policy — it reads
`cfg.consume`, an attribute the `PointConfig` model does not define, and
even with it present it would pass only 3 positional arguments to the
4-parameter `calculate_consumption`.  Evaluated at a concrete enabled
policy, the modelled path returns the raised error instead of a cost. -/
theorem calculate_raises_on_enabled_policy :
    PointService_calculate exampleDb "wf-1" (some 100) =
      .error (.attributeError "PointConfig object has no attribute consume") := by
  rfl

/-- Claim C1 (code bug): with balance 5, an enabled policy whose computed
cost would be 10, and either value of `allow_negative`, the post-hoc
deduction `consume_points` raises the stale-attribute error from
`PointService.calculate` before reaching the balance update (with
`allow_negative = true` the spec instead requires the balance to become −5
with exactly one ledger entry; no update and no ledger write can ever
happen, because the surviving path would also call `update_user_point` with
the unknown keyword `point_delta` and `create_point_record` with the
unknown keyword `user_uid`). -/
theorem consume_points_raises_on_enabled_policy :
    consume_points exampleDb "u-1" none "wf-1" (some 100) true 2 none =
      .error (.attributeError "PointConfig object has no attribute consume") ∧
    consume_points exampleDb "u-1" none "wf-1" (some 100) false 2 none =
      .error (.attributeError "PointConfig object has no attribute consume") := by
  exact ⟨rfl, rfl⟩

/-- A database with no billing policies at all. -/
def emptyDb : Db := { users := [], point_configs := [], point_records := [] }

/-- Claim C10: when the computed cost is ≤ 0, `consume_points` returns the
free result and performs no balance update and no ledger insert (the
returned state is the input state unchanged); and a negative computed cost
— which the per-call branch of `calculate_consumption` produces for a
negative usage count, as the last conjunct shows — never increases any
user's balance. -/
theorem consume_points_free_guard (db : Db) (user_uid : String)
    (from_user_uid : Option String) (wf : String) (usage : Option Int)
    (an : Bool) (rt : Int) (pre : Option String) (total : ℚ) (desc : String)
    (cfg : Option PointConfig)
    (hcalc : PointService_calculate db wf usage = .ok (total, desc, cfg))
    (hle : total ≤ 0) :
    consume_points db user_uid from_user_uid wf usage an rt pre =
      .ok (db, freeConsumeResult) ∧
    (∀ db2 r, consume_points db user_uid from_user_uid wf usage an rt pre =
        .ok (db2, r) → ∀ uid2, userBalance db2 uid2 = userBalance db uid2) ∧
    calculate_consumption (some 10) (some 2) (some 1) (some (-5)) < 0 := by
  have h1 : consume_points db user_uid from_user_uid wf usage an rt pre =
      .ok (db, freeConsumeResult) := by
    rw [consume_points, hcalc]
    simp only [bind, Except.bind]
    simp [hle, pure, Except.pure]
  refine ⟨h1, ?_, ?_⟩
  · intro db2 r h
    rw [h1] at h
    cases h
    intro uid2
    rfl
  · have hc : ceilDiv (callsOf (some (-5))) (batchUnit (some 1)) = -5 := by
      decide
    have h50 : quantize6 ((-50 : ℚ)) = -50 := by
      exact_mod_cast quantize6_intCast (-50)
    simp only [calculate_consumption, Option.getD_some, hc]
    norm_num [h50]

/-- Witness for claim C10: a workflow with no policy computes cost 0 and the
call returns the free result with the database unchanged. -/
theorem consume_points_free_guard_witness :
    consume_points emptyDb "u-1" none "wf-x" none false 2 none =
      .ok (emptyDb, freeConsumeResult) :=
  (consume_points_free_guard emptyDb "u-1" none "wf-x" none false 2 none
    0 "免费使用，无积分扣减" none rfl (le_refl 0)).1

/-! ## Concurrent deduction claims -/

theorem get_user_single (uid uname : String) (p : Option ℚ) :
    get_user_by_uid (singleUserDb uid uname p) uid =
      some { uid := uid, username := uname, is_del := 0, point := p } := by
  simp [get_user_by_uid, singleUserDb, List.find?]

theorem update_user_point_single_ok (uid uname : String) (c b : ℚ)
    (hq : quantize6 (-c) = -c) (hcond : 0 ≤ b + -c) :
    update_user_point (singleUserDb uid uname (some b)) uid (-c) false =
      .ok (singleUserDb uid uname (some (b + -c)),
        some { uid := uid, username := uname, is_del := 0,
               point := some (b + -c) }) := by
  have hmatch : updateRowMatches uid (-c) false
      { uid := uid, username := uname, is_del := 0, point := some b } = true := by
    simp only [updateRowMatches, beq_self_eq_true, Bool.false_or,
      decide_eq_true hcond, Bool.and_self]
  simp only [update_user_point, get_user_single, hq]
  simp [singleUserDb, hmatch, get_user_by_uid, List.find?]

theorem update_user_point_single_fail (uid uname : String) (c b : ℚ)
    (hq : quantize6 (-c) = -c) (hcond : ¬ 0 ≤ b + -c) :
    update_user_point (singleUserDb uid uname (some b)) uid (-c) false =
      .error (.valueError "积分不足") := by
  have hmatch : updateRowMatches uid (-c) false
      { uid := uid, username := uname, is_del := 0, point := some b } = false := by
    simp only [updateRowMatches, beq_self_eq_true, Bool.false_or,
      decide_eq_false hcond, Bool.and_false]
  simp only [update_user_point, get_user_single, hq]
  simp [singleUserDb, hmatch]

/-- While the balance holds at least `k` instalments of `c`, all `k`
deductions succeed and the balance drops accordingly. -/
theorem runDeducts_le (uid uname : String) (c : ℚ) (hc : 0 < c)
    (hq : quantize6 (-c) = -c) :
    ∀ (k m : ℕ), k ≤ m →
      runDeducts uid c k (singleUserDb uid uname (some ((m : ℚ) * c))) =
        (singleUserDb uid uname (some (((m - k : ℕ) : ℚ) * c)), k, 0) := by
  intro k
  induction k with
  | zero =>
    intro m hm
    simp [runDeducts]
  | succ k ih =>
    intro m hm
    have hm1 : 1 ≤ m := by omega
    have hcond : 0 ≤ ((m : ℚ) * c) + -c := by
      have h1 : (1 : ℚ) ≤ (m : ℚ) := by exact_mod_cast hm1
      nlinarith
    have hok := update_user_point_single_ok uid uname c ((m : ℚ) * c) hq hcond
    have hbal : ((m : ℚ) * c) + -c = (((m - 1 : ℕ) : ℚ) * c) := by
      have hcast : ((m - 1 : ℕ) : ℚ) = (m : ℚ) - 1 := by
        push_cast [Nat.cast_sub hm1]
        ring
      rw [hcast]
      ring
    simp only [runDeducts, hok]
    rw [hbal, ih (m - 1) (by omega)]
    have hsub : m - 1 - k = m - (k + 1) := by omega
    simp [hsub]

/-- Once the balance holds `m < k` instalments, exactly `m` of the `k`
deductions succeed, the rest fail, and the final balance is 0. -/
theorem runDeducts_ge (uid uname : String) (c : ℚ) (hc : 0 < c)
    (hq : quantize6 (-c) = -c) :
    ∀ (k m : ℕ), m ≤ k →
      runDeducts uid c k (singleUserDb uid uname (some ((m : ℚ) * c))) =
        (singleUserDb uid uname (some 0), m, k - m) := by
  intro k
  induction k with
  | zero =>
    intro m hm
    have hm0 : m = 0 := by omega
    subst hm0
    simp [runDeducts]
  | succ k ih =>
    intro m hm
    cases m with
    | zero =>
      have hcond : ¬ 0 ≤ (((0 : ℕ) : ℚ) * c) + -c := by
        push_cast
        simp
        linarith
      have hfail := update_user_point_single_fail uid uname c _ hq hcond
      simp only [runDeducts, hfail]
      rw [ih 0 (by omega)]
      simp
    | succ m' =>
      have hcond : 0 ≤ (((m' + 1 : ℕ) : ℚ) * c) + -c := by
        have h1 : (1 : ℚ) ≤ ((m' + 1 : ℕ) : ℚ) := by exact_mod_cast Nat.succ_le_succ (Nat.zero_le m')
        nlinarith
      have hok := update_user_point_single_ok uid uname c (((m' + 1 : ℕ) : ℚ) * c) hq hcond
      have hbal : (((m' + 1 : ℕ) : ℚ) * c) + -c = ((m' : ℕ) : ℚ) * c := by
        push_cast
        ring
      simp only [runDeducts, hok]
      rw [hbal, ih m' (by omega)]
      simp

/-- Claim C4: N concurrent deductions of cost `c > 0` against a shared
balance of `(N-1)*c` with `allow_negative = false` (each one an atomic
conditional UPDATE, so any concurrent schedule is a sequence of the N
atomic steps) produce exactly N−1 successes and one failure, leave the
final balance at 0, and the balance is non-negative after every prefix of
the schedule.  The hypothesis `quantize6 (-c) = -c` says the cost is
already a 6-fractional-digit decimal, as every computed cost is. -/
theorem concurrent_deduction_safety (N : ℕ) (hN : 1 ≤ N) (c : ℚ) (hc : 0 < c)
    (hq : quantize6 (-c) = -c) (uid uname : String) :
    (runDeducts uid c N (singleUserDb uid uname (some (((N - 1 : ℕ) : ℚ) * c)))).2.1 = N - 1 ∧
    (runDeducts uid c N (singleUserDb uid uname (some (((N - 1 : ℕ) : ℚ) * c)))).2.2 = 1 ∧
    userBalance (runDeducts uid c N (singleUserDb uid uname (some (((N - 1 : ℕ) : ℚ) * c)))).1 uid = some 0 ∧
    (∀ k, k ≤ N →
      ∃ bal, userBalance (runDeducts uid c k (singleUserDb uid uname (some (((N - 1 : ℕ) : ℚ) * c)))).1 uid = some bal ∧ 0 ≤ bal) := by
  have hrun := runDeducts_ge uid uname c hc hq N (N - 1) (by omega)
  have hN1 : N - (N - 1) = 1 := by omega
  refine ⟨?_, ?_, ?_, ?_⟩
  · rw [hrun]
  · rw [hrun, hN1]
  · rw [hrun]
    simp [userBalance, get_user_single]
  · intro k hk
    rcases le_or_lt k (N - 1) with hkle | hkgt
    · rw [runDeducts_le uid uname c hc hq k (N - 1) hkle]
      refine ⟨((N - 1 - k : ℕ) : ℚ) * c, ?_, ?_⟩
      · simp [userBalance, get_user_single]
      · positivity
    · have hkN : k = N := by omega
      subst hkN
      rw [hrun]
      refine ⟨0, ?_, le_refl 0⟩
      simp [userBalance, get_user_single]

/-- Witness for claim C4 with N = 3 and cost 10. -/
theorem concurrent_deduction_safety_witness :
    (runDeducts "u" 10 3 (singleUserDb "u" "n" (some (((3 - 1 : ℕ) : ℚ) * 10)))).2.1 = 3 - 1 ∧
    (runDeducts "u" 10 3 (singleUserDb "u" "n" (some (((3 - 1 : ℕ) : ℚ) * 10)))).2.2 = 1 ∧
    userBalance (runDeducts "u" 10 3 (singleUserDb "u" "n" (some (((3 - 1 : ℕ) : ℚ) * 10)))).1 "u" = some 0 := by
  have hq10 : quantize6 (-(10 : ℚ)) = -10 := by
    exact_mod_cast quantize6_intCast (-10)
  have h := concurrent_deduction_safety 3 (by norm_num) 10 (by norm_num) hq10 "u" "n"
  exact ⟨h.1, h.2.1, h.2.2.1⟩

/-! ## Streaming meter claims -/

theorem runMeterAux_spec (db : Db) (uu : String) (fu : Option String)
    (wf : String) :
    ∀ (actions : List ConsumerAction) (chunks : List (List Nat))
      (uerr : Option PyError) (st : MeterState),
      (runMeterAux db uu fu wf chunks uerr st actions).fin_runs = 1 ∧
      (runMeterAux db uu fu wf chunks uerr st actions).deduct_calls =
        [(finalizeGen db uu fu wf
          ((chunks.take (nextsBeforeClose actions)).foldl processChunk st)).1] ∧
      (runMeterAux db uu fu wf chunks uerr st actions).deduct_results =
        [(finalizeGen db uu fu wf
          ((chunks.take (nextsBeforeClose actions)).foldl processChunk st)).2] ∧
      ((runMeterAux db uu fu wf chunks uerr st actions).propagated = none ∨
        (runMeterAux db uu fu wf chunks uerr st actions).propagated = uerr) := by
  intro actions
  induction actions with
  | nil =>
    intro chunks uerr st
    simp [runMeterAux, nextsBeforeClose]
  | cons a acts ih =>
    intro chunks uerr st
    cases a with
    | close =>
      simp [runMeterAux, nextsBeforeClose]
    | next =>
      cases chunks with
      | nil =>
        simp [runMeterAux, nextsBeforeClose]
      | cons c rest =>
        simp only [runMeterAux, nextsBeforeClose, List.take_succ_cons,
          List.foldl_cons]
        exact ih rest uerr (processChunk st c)

theorem runMeterAux_yields_all (db : Db) (uu : String) (fu : Option String)
    (wf : String) :
    ∀ (chunks : List (List Nat)) (st : MeterState),
      (runMeterAux db uu fu wf chunks none st
        (List.replicate (chunks.length + 1) ConsumerAction.next)).yields =
        chunks := by
  intro chunks
  induction chunks with
  | nil =>
    intro st
    simp [runMeterAux, List.replicate]
  | cons c rest ih =>
    intro st
    have hih := ih (processChunk st c)
    rw [List.replicate_succ] at hih
    simp only [List.length_cons, List.replicate_succ, runMeterAux]
    rw [hih]

/-- Claim C2: the streaming meter is byte-exact — when the consumer pulls
the whole stream, the concatenation of the yielded chunks equals the
concatenation of the upstream chunks in the same order — and its finalizer
(the `finally` block that triggers the deduction) runs exactly once on
every exit path: for every consumer trace (including early disconnects and
abandonment) and every upstream outcome. -/
theorem streaming_byte_exactness (db : Db) (uu : String) (fu : Option String)
    (wf : String) (upstream : List (List Nat)) (uerr : Option PyError)
    (actions : List ConsumerAction) :
    ((runMeter db uu fu wf upstream none
        (List.replicate (upstream.length + 1) ConsumerAction.next)).yields).flatten =
      upstream.flatten ∧
    (runMeter db uu fu wf upstream uerr actions).fin_runs = 1 := by
  constructor
  · rw [runMeter, runMeterAux_yields_all]
  · exact (runMeterAux_spec db uu fu wf actions upstream uerr
      { char_count := 0, buffer := [] }).1

/-- Claim C8: on every termination of the metered stream the finalizer
issues exactly one deduction call, carrying the accumulated character count
(of the consumed prefix, pending tail included) as `usage_amount` with
`allow_negative = true` and the streaming description; the deduction's
outcome is recorded and discarded, and any failure it raises is absorbed —
what propagates to the consumer is never more than the upstream's own
error. -/
theorem streaming_finalizer_deduction (db : Db) (uu : String)
    (fu : Option String) (wf : String) (upstream : List (List Nat))
    (uerr : Option PyError) (actions : List ConsumerAction) :
    (runMeter db uu fu wf upstream uerr actions).deduct_calls =
      [streamDeductCall uu fu wf
        (finalizeCount (meterStateAfter (upstream.take (nextsBeforeClose actions))))] ∧
    (streamDeductCall uu fu wf
      (finalizeCount (meterStateAfter (upstream.take (nextsBeforeClose actions))))).allow_negative
        = true ∧
    (runMeter db uu fu wf upstream uerr actions).deduct_results =
      [consume_points db uu fu wf
        (some ((finalizeCount (meterStateAfter (upstream.take (nextsBeforeClose actions)))) : Int))
        true 2 (some ("流式扣费: workflow_id=" ++ wf))] ∧
    ((runMeter db uu fu wf upstream uerr actions).propagated = none ∨
      (runMeter db uu fu wf upstream uerr actions).propagated = uerr) := by
  have h := runMeterAux_spec db uu fu wf actions upstream uerr
    { char_count := 0, buffer := [] }
  refine ⟨?_, rfl, ?_, h.2.2.2⟩
  · rw [runMeter, h.2.1]
    rfl
  · rw [runMeter, h.2.2.1]
    rfl
